import Mathlib

/-!
Shallow embedding of the Email-summarization repository
(`gmail_fetch.py`, `talk_with_docs.py`, `streamlit_app.py`).

Text is modelled as `List Char`.  The regex substitution passes of
`clean_email_text` are embedded as deterministic scanners that implement
Python's leftmost, greedy-with-backtracking `re.sub` semantics for the
concrete patterns appearing in the source.  Each scanner carries a fuel
parameter; the top-level wrappers pass `length + 1`, which is always
sufficient because every recursive call consumes at least one character.
External libraries used by the source (base64 decoding, `html2text`,
`datetime.strptime`/`strftime`, the Gmail and Gemini clients, the tiktoken
tokenizer) are black boxes in the repository and appear here as function
parameters of the embedded operations.
-/

set_option autoImplicit false

namespace EmailSum

/-- Characters matched by Python's `\s` (and stripped by `str.strip`):
ASCII whitespace plus the Unicode whitespace code points. -/
def isPySpace (c : Char) : Bool :=
  c == ' ' || c == '\t' || c == '\n' || c == '\u000b' || c == '\u000c' ||
  c == '\r' || c == '\u001c' || c == '\u001d' || c == '\u001e' || c == '\u001f' ||
  c == '\u0085' || c == '\u00a0' || c == '\u1680' || c == '\u2000' ||
  c == '\u2001' || c == '\u2002' || c == '\u2003' || c == '\u2004' ||
  c == '\u2005' || c == '\u2006' || c == '\u2007' || c == '\u2008' ||
  c == '\u2009' || c == '\u200a' || c == '\u2028' || c == '\u2029' ||
  c == '\u202f' || c == '\u205f' || c == '\u3000'

/-- Characters of the class `[-|]` used by the first substitution. -/
def isDashPipe (c : Char) : Bool :=
  c == '-' || c == '|'

/-- Characters of the class `[a-z]` used by the HTML-entity substitution. -/
def isLowerAlpha (c : Char) : Bool :=
  decide (97 ≤ c.toNat) && decide (c.toNat ≤ 122)

/-- Characters of the zero-width and soft-hyphen class removed by the
invisible-character substitution (U+200B, U+200C, U+200D, U+FEFF, U+00AD). -/
def isInvisible (c : Char) : Bool :=
  c == '\u200b' || c == '\u200c' || c == '\u200d' || c == '\ufeff' || c == '\u00ad'

/-- Index of the last newline of a list, if any. -/
def lastIdxNl : List Char → Option Nat
  | [] => none
  | c :: cs =>
    match lastIdxNl cs with
    | some i => some (i + 1)
    | none => if c == '\n' then some 0 else none

/-- Boolean prefix test (does the second list start with the first?). -/
def leadsWith : List Char → List Char → Bool
  | [], _ => true
  | _ :: _, [] => false
  | m :: ms, c :: cs => m == c && leadsWith ms cs

/-- Boolean contiguous-sublist (substring) test. -/
def containsSeq (pat : List Char) : List Char → Bool
  | [] => leadsWith pat []
  | c :: cs => leadsWith pat (c :: cs) || containsSeq pat cs

/-- Scanner for `re.sub(r"[-|]+\s*\n\s*[-|]+", "", text)`: a maximal `[-|]` run,
a maximal whitespace run containing a newline, and a following `[-|]` run are
deleted together. -/
def sub1Go : Nat → List Char → List Char
  | 0, s => s
  | _, [] => []
  | n + 1, c :: cs =>
    if isDashPipe c then
      let r1 := cs.dropWhile isDashPipe
      let ws := r1.takeWhile isPySpace
      let r2 := r1.dropWhile isPySpace
      if ws.contains '\n' then
        match r2 with
        | d :: ds =>
          if isDashPipe d then sub1Go n (ds.dropWhile isDashPipe)
          else c :: sub1Go n cs
        | [] => c :: sub1Go n cs
      else c :: sub1Go n cs
    else c :: sub1Go n cs

/-- Embedding of `re.sub(r"[|]", "", text)`. -/
def sub2 (s : List Char) : List Char :=
  s.filter (fun c => !(c == '|'))

/-- Scanner for `re.sub(r"\n\s*\n", "\n", text)`: a newline followed by a
whitespace run is collapsed to a single newline, the match ending at the last
newline of the run (greedy `\s*`). -/
def sub3Go : Nat → List Char → List Char
  | 0, s => s
  | _, [] => []
  | n + 1, c :: cs =>
    if c == '\n' then
      let run := cs.takeWhile isPySpace
      match lastIdxNl run with
      | some i => '\n' :: sub3Go n (cs.drop (i + 1))
      | none => c :: sub3Go n cs
    else c :: sub3Go n cs

/-- Scanner for `re.sub(r"^\s*-+\s*$", "", text, flags=re.MULTILINE)`.
The Boolean argument records whether the current position starts a line.
In multiline mode `\s` still matches newlines, so a match may span lines;
the greedy trailing `\s*` stops at the end of the string or, failing that,
just before the last newline of the trailing whitespace run (`$` is
zero-width). -/
def sub4Try (s : List Char) : Option (Bool × List Char) :=
  let r1 := s.dropWhile isPySpace
  match r1 with
  | d :: _ =>
    if d == '-' then
      let r2 := r1.dropWhile (fun x => x == '-')
      let ws2 := r2.takeWhile isPySpace
      let r3 := r2.dropWhile isPySpace
      match r3 with
      | [] => some (false, [])
      | _ :: _ =>
        match lastIdxNl ws2 with
        | some i =>
          some ((if i = 0 then false else ws2.getD (i - 1) 'x' == '\n'), ws2.drop i ++ r3)
        | none => none
    else none
  | [] => none

/-- Main scanner for the multiline hyphen-line substitution: at each
line-start position a match attempt is made; on success scanning resumes at
the match end (the matched text is deleted), otherwise the character is kept
and scanning advances. -/
def sub4Go : Nat → Bool → List Char → List Char
  | 0, _, s => s
  | _, _, [] => []
  | n + 1, bol, c :: cs =>
    if bol then
      match sub4Try (c :: cs) with
      | some (pv, rest) => sub4Go n pv rest
      | none => c :: sub4Go n (c == '\n') cs
    else c :: sub4Go n (c == '\n') cs

/-- Scanner for `re.sub(r'\[([^\]]+)\]\([^)]+\)', r'\1', text)`: a
markdown-style link is rewritten to its nonempty bracketed text. -/
def sub5Go : Nat → List Char → List Char
  | 0, s => s
  | _, [] => []
  | n + 1, c :: cs =>
    if c == '[' then
      let txt := cs.takeWhile (fun x => !(x == ']'))
      let r1 := cs.dropWhile (fun x => !(x == ']'))
      match r1 with
      | ']' :: '(' :: r2 =>
        if txt.isEmpty then c :: sub5Go n cs
        else
          let url := r2.takeWhile (fun x => !(x == ')'))
          let r3 := r2.dropWhile (fun x => !(x == ')'))
          match r3 with
          | ')' :: r4 =>
            if url.isEmpty then c :: sub5Go n cs
            else txt ++ sub5Go n r4
          | _ => c :: sub5Go n cs
      | _ => c :: sub5Go n cs
    else c :: sub5Go n cs

/-- Scanner for `re.sub(r'&[a-z]+;', ' ', text)`. -/
def sub6Go : Nat → List Char → List Char
  | 0, s => s
  | _, [] => []
  | n + 1, c :: cs =>
    if c == '&' then
      let run := cs.takeWhile isLowerAlpha
      let rest := cs.dropWhile isLowerAlpha
      match rest with
      | ';' :: rest2 =>
        if run.isEmpty then c :: sub6Go n cs
        else ' ' :: sub6Go n rest2
      | _ => c :: sub6Go n cs
    else c :: sub6Go n cs

/-- Scanner for `re.sub(r'\s{2,}', ' ', text)`: a whitespace run of length at
least two is collapsed to a single space. -/
def sub7Go : Nat → List Char → List Char
  | 0, s => s
  | _, [] => []
  | n + 1, c :: cs =>
    if isPySpace c then
      match cs.takeWhile isPySpace with
      | [] => c :: sub7Go n cs
      | _ :: _ => ' ' :: sub7Go n (cs.dropWhile isPySpace)
    else c :: sub7Go n cs

/-- Embedding of the invisible-character removal `re.sub` (the character
class holding U+200B, U+200C, U+200D, U+FEFF, U+00AD). -/
def sub8 (s : List Char) : List Char :=
  s.filter (fun c => !(isInvisible c))

/-- The truncation marker of `re.split(r'(?=# REPO of the week)', text)[0]`,
the character list of the string `"# REPO of the week"`. -/
def repoMarker : List Char :=
  ['#', ' ', 'R', 'E', 'P', 'O', ' ', 'o', 'f', ' ', 't', 'h', 'e', ' ', 'w', 'e', 'e', 'k']

/-- Scanner for the lookahead split: everything from the first occurrence of
the marker onwards is dropped. -/
def sub9Go : Nat → List Char → List Char
  | 0, s => s
  | _, [] => []
  | n + 1, c :: cs =>
    if leadsWith repoMarker (c :: cs) then []
    else c :: sub9Go n cs

/-- Embedding of Python `str.strip()`. -/
def pyStrip (s : List Char) : List Char :=
  ((s.dropWhile isPySpace).reverse.dropWhile isPySpace).reverse

/-- Stage 1 of `clean_email_text` with sufficient fuel. -/
def sub1 (s : List Char) : List Char := sub1Go (s.length + 1) s

/-- Stage 3 of `clean_email_text` with sufficient fuel. -/
def sub3 (s : List Char) : List Char := sub3Go (s.length + 1) s

/-- Stage 4 of `clean_email_text` with sufficient fuel (position 0 starts a line). -/
def sub4 (s : List Char) : List Char := sub4Go (s.length + 1) true s

/-- Stage 5 of `clean_email_text` with sufficient fuel. -/
def sub5 (s : List Char) : List Char := sub5Go (s.length + 1) s

/-- Stage 6 of `clean_email_text` with sufficient fuel. -/
def sub6 (s : List Char) : List Char := sub6Go (s.length + 1) s

/-- Stage 7 of `clean_email_text` with sufficient fuel. -/
def sub7 (s : List Char) : List Char := sub7Go (s.length + 1) s

/-- Stage 9 of `clean_email_text` with sufficient fuel. -/
def sub9 (s : List Char) : List Char := sub9Go (s.length + 1) s

/-- Embedding of `clean_email_text` from `gmail_fetch.py`: the ten text
rewriting stages applied in source order. -/
def clean_email_text (s : List Char) : List Char :=
  pyStrip (sub9 (sub8 (sub7 (sub6 (sub5 (sub4 (sub3 (sub2 (sub1 s)))))))))

/-- String-typed wrapper of `clean_email_text`. -/
def clean_email_textS (s : String) : String :=
  List.asString (clean_email_text (String.toList s))

/-- Embedding of Python `str.strip()` on strings. -/
def pyStripS (s : String) : String :=
  List.asString (pyStrip (String.toList s))

/-- Per-character lowercasing, modelling Python `str.lower()` (they agree on
the ASCII inputs considered here). -/
def pyLower (s : String) : List Char :=
  (String.toList s).map Char.toLower

/-- The literal searched for by `"<html>" in decoded_data.lower()`. -/
def htmlTag : List Char :=
  String.toList ("<html>")

/-- The non-multipart HTML test of `get_emails`: the lowercased body contains
the string of `htmlTag`. -/
def containsHtmlTag (s : String) : Bool :=
  containsSeq htmlTag (pyLower s)

/-- A MIME part of a Gmail message payload: its `mimeType` and the
(base64url-encoded) `body.data` field, absent when the part carries no data. -/
structure Part where
  mimeType : String
  data : Option String
deriving Repr, DecidableEq

/-- The payload of a fetched Gmail message: its headers (name and value),
its parts list (empty when not multipart) and the direct `body.data`. -/
structure Payload where
  headers : List (String × String)
  parts : List Part
  bodyData : Option String
deriving Repr, DecidableEq

/-- The Email Record built by `get_emails` for one message. -/
structure EmailRec where
  id : String
  subject : String
  sender : String
  body : String
  plain_text_available : Bool
  html_available : Bool
  date : String
deriving Repr, DecidableEq

/-- The four mutable locals of the part-scanning loop of `get_emails`. -/
structure BodyScan where
  plain_text_body : String
  html_body : String
  plain_text_found : Bool
  html_found : Bool
deriving Repr, DecidableEq

/-- Embedding of the `for part in parts` loop of `get_emails`: parts without
data (or with falsy empty data) are skipped, an HTML part overwrites
`html_body`, a plain-text part overwrites `plain_text_body`. -/
def scanParts (decode : String → String) : List Part → BodyScan → BodyScan
  | [], st => st
  | p :: ps, st =>
    match p.data with
    | none => scanParts decode ps st
    | some d =>
      if d == ("") then scanParts decode ps st
      else
        let decoded := decode d
        if p.mimeType == ("text/html") then
          scanParts decode ps { st with html_body := decoded, html_found := true }
        else if p.mimeType == ("text/plain") then
          scanParts decode ps { st with plain_text_body := decoded, plain_text_found := true }
        else scanParts decode ps st

/-- Data of a part when it has the given MIME type and nonempty data. -/
def partDataOk (mt : String) (p : Part) : Option String :=
  match p.data with
  | some d => if p.mimeType == mt && !(d == ("")) then some d else none
  | none => none

/-- Data of the last part of the given MIME type carrying nonempty data:
the value the scanning loop leaves in the corresponding body variable. -/
def lastPartData (mt : String) : List Part → Option String
  | [] => none
  | p :: ps =>
    match lastPartData mt ps with
    | some d => some d
    | none => partDataOk mt p

/-- Header lookup of `get_emails`: the value of the first header with the
given name, defaulting to the empty string. -/
def headerValue (headers : List (String × String)) (key : String) : String :=
  match headers.find? (fun h => h.1 == key) with
  | some h => h.2
  | none => ""

/-- Embedding of the per-message body of `get_emails` (`gmail_fetch.py`
lines 116-183).  `decode` stands for base64url decoding, `extract` for
`extract_clean_text` (the html2text call), `parseDate` for
`datetime.strptime(date_raw, "%a, %d %b %Y %H:%M:%S %z")` with `none`
modelling the `ValueError` case, `formatD` for `strftime("%d:%m:%Y")` and
`now` for `datetime.now()`; all of these are external-library black boxes in
the source. -/
def processMessage {D : Type} (decode extract : String → String)
    (parseDate : String → Option D) (formatD : D → String) (now : D)
    (msgId : String) (payload : Payload) : EmailRec :=
  let subject := headerValue payload.headers ("Subject")
  let sender := headerValue payload.headers ("From")
  let date_raw := headerValue payload.headers ("Date")
  let formatted_date :=
    match parseDate date_raw with
    | some dt => formatD dt
    | none => formatD now
  let st0 : BodyScan := ⟨"", "", false, false⟩
  let st :=
    if payload.parts.isEmpty then
      match payload.bodyData with
      | some d =>
        if d == ("") then st0
        else if containsHtmlTag (decode d) then
          { st0 with html_body := decode d, html_found := true }
        else { st0 with plain_text_body := decode d, plain_text_found := true }
      | none => st0
    else scanParts decode payload.parts st0
  let body :=
    if st.html_found then st.html_body
    else if st.plain_text_found then st.plain_text_body
    else ""
  { id := msgId, subject := subject, sender := sender,
    body := clean_email_textS (extract (pyStripS body)),
    plain_text_available := st.plain_text_found,
    html_available := st.html_found,
    date := formatted_date }

/-- Embedding of the message loop of `get_emails`: each fetched message
(id and payload, as returned by the Gmail API) is processed in order. -/
def get_emails {D : Type} (decode extract : String → String)
    (parseDate : String → Option D) (formatD : D → String) (now : D)
    (messages : List (String × Payload)) : List EmailRec :=
  messages.map (fun m => processMessage decode extract parseDate formatD now m.1 m.2)

/-- A Stored Document of the chromadb collection: id, document text and the
subject/sender/date metadata. -/
structure StoredDoc where
  id : String
  document : String
  subject : String
  sender : String
  date : String
deriving Repr, DecidableEq

/-- The chromadb `emails` collection, as the list of its stored documents. -/
abbrev Collection := List StoredDoc

/-- Observable outcome of `updated_chromadb`: the collection afterwards, the
message printed, and the Python return value (always `None`, since the
function has no return statement). -/
structure UpsertOutcome where
  collection : Collection
  printed : String
  ret : Option Nat
deriving Repr, DecidableEq

/-- Embedding of `updated_chromadb` (`gmail_fetch.py` lines 188-213):
`collection.get(ids=ids)` yields the requested ids already present, only
emails whose id is absent are added, and the function returns `None`. -/
def updated_chromadb (emails : List EmailRec) (c : Collection) : UpsertOutcome :=
  let ids := emails.map (fun e => e.id)
  let existing_ids := (c.filter (fun d => ids.contains d.id)).map (fun d => d.id)
  let new_emails := emails.filter (fun e => !(existing_ids.contains e.id))
  if new_emails.isEmpty then
    { collection := c,
      printed := ("Database was not updated! Nothing new :("), ret := none }
  else
    { collection := c ++ new_emails.map (fun e => ⟨e.id, e.body, e.subject, e.sender, e.date⟩),
      printed := ("Database was updated!"), ret := none }

/-- Number of stored documents carrying a given id. -/
def countId (c : Collection) (i : String) : Nat :=
  (c.filter (fun d => d.id == i)).length

/-- Result of a Python call: a returned value, or a raised exception
identified by its class name. -/
inductive PyResult (α : Type) where
  | ok (val : α)
  | exn (exnName : String)
deriving Repr, DecidableEq

/-- Embedding of `get_response_from_llm` (`talk_with_docs.py` lines 11-40)
over an abstract generation oracle: `generate k` is the outcome of the
`k`-th `generate_content` call.  The Boolean argument records whether the
call bound all required parameters: the top-level call does, but the
recursive retry in the `except` branch passes only three positional
arguments (`gemini_client, prompt, generation_config`), so the required
`generation_config` parameter is unbound and Python raises `TypeError`
before the body runs; an exception inside the `except` block propagates.
Had a retry returned a value, the value would be discarded and the final
`return response.text` would read the unbound local `response`, raising
`NameError`.  The fuel argument only bounds the unrolling. -/
def get_response_from_llm_aux (generate : Nat → PyResult String) :
    Nat → Nat → Bool → PyResult String
  | 0, _, _ => PyResult.exn ("RecursionError")
  | _ + 1, _, false => PyResult.exn ("TypeError")
  | fuel + 1, k, true =>
    match generate k with
    | PyResult.ok t => PyResult.ok t
    | PyResult.exn _ =>
      match get_response_from_llm_aux generate fuel (k + 1) false with
      | PyResult.exn e => PyResult.exn e
      | PyResult.ok _ => PyResult.exn ("NameError")

/-- Top-level call of `get_response_from_llm`: all parameters bound. -/
def get_response_from_llm (generate : Nat → PyResult String) (fuel : Nat) :
    PyResult String :=
  get_response_from_llm_aux generate fuel 0 true

/-- The two shapes `summarize_emails` returns: a bare string (the
no-documents message) or the pair `(response, token count or None)`. -/
inductive SummResult where
  | strV (s : String)
  | pairV (response : String) (numTokens : Option Nat)
deriving Repr, DecidableEq

/-- Result of `summarize_emails` together with the number of generation
calls made. -/
structure SummOutput where
  result : SummResult
  modelCalls : Nat
deriving Repr, DecidableEq

/-- The fixed message returned when no stored document qualifies. -/
def noDocsMsg : String :=
  "You have no documents to summarize! Please add some to database!"

/-- The fixed system prompt of `summarize_emails`. -/
def summSystem : String :=
  "You are an machine learning expert with 10 years experience. Your goal is to summarize indicated documents. You have to\n    do your best to get essence out of this documents. Your audience mainly will be STEM student, who want to be a Data Scientist in future. You should\n    propose to 5 topics to explore (you can propose less). If you propose something, you can get the link or title of the email to deepen knowledge. If you think none of this topics is important, only summarize text. Some documents will be\n    in Polish, but some in English. In order to standardize generate only text in English."

/-- The f-string prompt of `summarize_emails`: the qualifying document texts
joined by newlines between a fixed prefix and a trailing space. -/
def mkSummPrompt (docs : List String) : String :=
  ("Summarize documents: \n ") ++ String.intercalate ("\n") docs ++ (" ")

/-- Embedding of `summarize_emails` (`talk_with_docs.py` lines 43-82).
`parseDocDate` stands for `datetime.strptime(metadata["date"], "%d:%m:%Y")`
placed on an integer timeline, `now` for `datetime.now()` on that timeline,
`llm prompt system` for the success-path response text of
`get_response_from_llm` and `tokenizer` for the tiktoken token count;
`modelCalls` counts generation calls made. -/
def summarize_emails (llm : String → String → String) (tokenizer : String → Nat)
    (parseDocDate : String → Int) (now timedelta_int : Int)
    (c : Collection) (count_tokens : Bool) : SummOutput :=
  let date_timedelta_days := now - timedelta_int
  let docs := (c.filter (fun d => date_timedelta_days ≤ parseDocDate d.date)).map
    (fun d => d.document)
  if docs.isEmpty then { result := SummResult.strV noDocsMsg, modelCalls := 0 }
  else
    let prompt := mkSummPrompt docs
    let response := llm prompt summSystem
    if count_tokens then
      { result := SummResult.pairV response (some (tokenizer prompt)), modelCalls := 1 }
    else { result := SummResult.pairV response none, modelCalls := 1 }

/-- Python tuple unpacking `response, num_tokens = x`, as performed by the
Summarize action of `streamlit_app.py` (line 77): unpacking a pair binds its
two components; unpacking a string iterates its characters and succeeds only
when the string has exactly two of them, otherwise `ValueError` is raised. -/
def unpackTwoSucceeds : SummResult → Bool
  | SummResult.pairV _ _ => true
  | SummResult.strV v => v.length == 2

/-- A markdown-style link `[text](url)` as a character list. -/
def mdLink (text url : List Char) : List Char :=
  '[' :: (text ++ ']' :: '(' :: (url ++ [')']))

/-- A concrete Email Record used as test input. -/
def e0 : EmailRec :=
  ⟨"id1", "subj", "alice@example.com", "body text", true, false, "01:01:2025"⟩

/-- A concrete multipart payload holding a plain-text part followed by an
HTML part. -/
def payloadBoth : Payload :=
  ⟨[], [⟨"text/plain", some ("hello")⟩, ⟨"text/html", some ("<p>x</p>")⟩], none⟩

/-- A concrete stored document dated on the timeline origin. -/
def doc1 : StoredDoc :=
  ⟨"i1", "doc one", "subj", "alice@example.com", "01:01:2025"⟩

/-! ### Stage lemmas for the cleaning pipeline -/

theorem sub1Go_id (n : Nat) (s : List Char) (h : ∀ c ∈ s, isDashPipe c = false) :
    sub1Go n s = s := by
  induction n generalizing s with
  | zero => cases s <;> rfl
  | succ n ih =>
    cases s with
    | nil => rfl
    | cons c cs =>
      have hc := h c (List.mem_cons_self c cs)
      have ih' := ih cs (fun x hx => h x (List.mem_cons_of_mem c hx))
      simp [sub1Go, hc, ih']

theorem sub2_id (s : List Char) (h : ∀ c ∈ s, (c == '|') = false) : sub2 s = s := by
  unfold sub2
  rw [List.filter_eq_self]
  intro a ha
  simp [h a ha]

theorem sub3Go_id (n : Nat) (s : List Char) (h : ∀ c ∈ s, (c == '\n') = false) :
    sub3Go n s = s := by
  induction n generalizing s with
  | zero => cases s <;> rfl
  | succ n ih =>
    cases s with
    | nil => rfl
    | cons c cs =>
      have hc := h c (List.mem_cons_self c cs)
      have ih' := ih cs (fun x hx => h x (List.mem_cons_of_mem c hx))
      simp [sub3Go, hc, ih']

theorem sub4Go_succ_cons (n : Nat) (bol : Bool) (c : Char) (cs : List Char) :
    sub4Go (n + 1) bol (c :: cs) =
      if bol then
        match sub4Try (c :: cs) with
        | some (pv, rest) => sub4Go n pv rest
        | none => c :: sub4Go n (c == '\n') cs
      else c :: sub4Go n (c == '\n') cs := rfl

theorem sub4Go_id (n : Nat) (b : Bool) (s : List Char)
    (h : ∀ c ∈ s, isPySpace c = false ∧ (c == '-') = false) :
    sub4Go n b s = s := by
  induction n generalizing b s with
  | zero => cases s <;> rfl
  | succ n ih =>
    cases s with
    | nil => rfl
    | cons c cs =>
      have hc := h c (List.mem_cons_self c cs)
      have ih' := fun b => ih b cs (fun x hx => h x (List.mem_cons_of_mem c hx))
      have htry : sub4Try (c :: cs) = none := by
        simp [sub4Try, List.dropWhile_cons, hc.1, hc.2]
      rw [sub4Go_succ_cons]
      cases b with
      | false => simp [ih']
      | true => simp [htry, ih']

theorem sub6Go_id (n : Nat) (s : List Char) (h : ∀ c ∈ s, (c == '&') = false) :
    sub6Go n s = s := by
  induction n generalizing s with
  | zero => cases s <;> rfl
  | succ n ih =>
    cases s with
    | nil => rfl
    | cons c cs =>
      have hc := h c (List.mem_cons_self c cs)
      have ih' := ih cs (fun x hx => h x (List.mem_cons_of_mem c hx))
      simp [sub6Go, hc, ih']

theorem sub7Go_id (n : Nat) (s : List Char) (h : ∀ c ∈ s, isPySpace c = false) :
    sub7Go n s = s := by
  induction n generalizing s with
  | zero => cases s <;> rfl
  | succ n ih =>
    cases s with
    | nil => rfl
    | cons c cs =>
      have hc := h c (List.mem_cons_self c cs)
      have ih' := ih cs (fun x hx => h x (List.mem_cons_of_mem c hx))
      simp [sub7Go, hc, ih']

theorem sub8_id (s : List Char) (h : ∀ c ∈ s, isInvisible c = false) : sub8 s = s := by
  unfold sub8
  rw [List.filter_eq_self]
  intro a ha
  simp [h a ha]

theorem sub9Go_id (n : Nat) (s : List Char) (h : ∀ c ∈ s, (c == '#') = false) :
    sub9Go n s = s := by
  induction n generalizing s with
  | zero => cases s <;> rfl
  | succ n ih =>
    cases s with
    | nil => rfl
    | cons c cs =>
      have hc : ('#' == c) = false := by
        have h1 : c ≠ '#' := by simpa using h c (List.mem_cons_self c cs)
        simpa using fun he => h1 he.symm
      have hl : leadsWith repoMarker (c :: cs) = false := by
        simp [repoMarker, leadsWith, hc]
      have ih' := ih cs (fun x hx => h x (List.mem_cons_of_mem c hx))
      simp [sub9Go, hl, ih']

theorem dropWhile_id_of_none (p : Char → Bool) (s : List Char)
    (h : ∀ c ∈ s, p c = false) : s.dropWhile p = s := by
  cases s with
  | nil => rfl
  | cons c cs => simp [List.dropWhile_cons, h c (List.mem_cons_self c cs)]

theorem pyStrip_id (s : List Char) (h : ∀ c ∈ s, isPySpace c = false) :
    pyStrip s = s := by
  unfold pyStrip
  rw [dropWhile_id_of_none _ _ h]
  rw [dropWhile_id_of_none _ _ (fun c hc => h c (List.mem_reverse.mp hc))]
  exact List.reverse_reverse s

/-! ### Claim C6 -/

/-- Claim C6 is false: `clean_email_text` is not idempotent.  On the input
`"a-\n[-](u)b"` the first pass rewrites the markdown link and yields
`"a-\n-b"`, exposing a hyphen-newline-hyphen fragment; the second pass
removes it and yields `"ab"`. -/
theorem C6_counterexample :
    clean_email_text (clean_email_text (String.toList ("a-\n[-](u)b"))) ≠
      clean_email_text (String.toList ("a-\n[-](u)b")) := by decide

/-- C6 amended: normalization is idempotent on every input whose single-pass
output is left unchanged by each individual cleaning stage (in general a
later stage may create material for an earlier one, so a second pass can
rewrite further). -/
theorem C6_amended_idempotent (t : List Char)
    (h1 : sub1 (clean_email_text t) = clean_email_text t)
    (h2 : sub2 (clean_email_text t) = clean_email_text t)
    (h3 : sub3 (clean_email_text t) = clean_email_text t)
    (h4 : sub4 (clean_email_text t) = clean_email_text t)
    (h5 : sub5 (clean_email_text t) = clean_email_text t)
    (h6 : sub6 (clean_email_text t) = clean_email_text t)
    (h7 : sub7 (clean_email_text t) = clean_email_text t)
    (h8 : sub8 (clean_email_text t) = clean_email_text t)
    (h9 : sub9 (clean_email_text t) = clean_email_text t)
    (h10 : pyStrip (clean_email_text t) = clean_email_text t) :
    clean_email_text (clean_email_text t) = clean_email_text t := by
  show pyStrip (sub9 (sub8 (sub7 (sub6 (sub5 (sub4 (sub3 (sub2 (sub1
      (clean_email_text t)))))))))) = clean_email_text t
  rw [h1, h2, h3, h4, h5, h6, h7, h8, h9]
  exact h10

/-- Witness for `C6_amended_idempotent` at the input `"hello world"`. -/
theorem C6_amended_witness :
    clean_email_text (clean_email_text (String.toList ("hello world"))) =
      clean_email_text (String.toList ("hello world")) :=
  C6_amended_idempotent (String.toList ("hello world")) (by decide) (by decide)
    (by decide) (by decide) (by decide) (by decide) (by decide) (by decide)
    (by decide) (by decide)

/-! ### Claim C4 -/

/-- Claim C4 describes a retry that the code cannot perform: when the first
generation call raises and a retry would succeed, `get_response_from_llm`
does not return the retried text; the recursive call in the `except` block
is missing its required `generation_config` argument, so `TypeError`
propagates out of the handler. -/
theorem C4_broken_retry :
    get_response_from_llm
        (fun k => if k == 0 then PyResult.exn ("ServerError") else PyResult.ok ("recovered")) 10
      = PyResult.exn ("TypeError") := rfl

/-! ### Claim C3 -/

/-- Claim C3 is false: on an empty store one record is inserted, but the
operation returns `None`, not the count `1`. -/
theorem C3_counterexample :
    (updated_chromadb [e0] ([] : Collection)).collection.length = 1 ∧
    (updated_chromadb [e0] ([] : Collection)).ret ≠ some 1 := by decide

/-! ### Store lemmas and claims C2, C3 -/

theorem existing_contains (c : Collection) (ids : List String) (i : String) (hi : i ∈ ids) :
    (((c.filter (fun d => ids.contains d.id)).map (fun d => d.id)).contains i)
      = c.any (fun d => d.id == i) := by
  rw [Bool.eq_iff_iff]
  simp only [List.elem_iff, List.mem_map, List.mem_filter, List.any_eq_true, beq_iff_eq]
  constructor
  · rintro ⟨d, ⟨hdc, hdi⟩, rfl⟩
    exact ⟨d, hdc, rfl⟩
  · rintro ⟨d, hdc, hde⟩
    exact ⟨d, ⟨hdc, by simpa [hde] using hi⟩, hde⟩

theorem upsert_single (c : Collection) (e : EmailRec) :
    (updated_chromadb [e] c).collection =
      if c.any (fun d => d.id == e.id) then c
      else c ++ [⟨e.id, e.body, e.subject, e.sender, e.date⟩] := by
  have key : [e].filter
      (fun x => !(((c.filter (fun d => ([e].map (fun y => y.id)).contains d.id)).map
        (fun d => d.id)).contains x.id))
      = [e].filter (fun x => !(c.any (fun d => d.id == x.id))) := by
    apply List.filter_congr
    intro x hx
    rw [existing_contains c ([e].map (fun y => y.id)) x.id (List.mem_map_of_mem _ hx)]
  simp only [updated_chromadb]
  rw [key]
  by_cases hm : c.any (fun d => d.id == e.id)
  · simp [hm]
  · simp [hm]

theorem countId_append (c1 c2 : Collection) (i : String) :
    countId (c1 ++ c2) i = countId c1 i + countId c2 i := by
  simp [countId, List.filter_append]

theorem countId_zero_iff (c : Collection) (i : String) :
    c.any (fun d => d.id == i) = false ↔ countId c i = 0 := by
  simp [countId, List.length_eq_zero, List.filter_eq_nil_iff, List.any_eq_false]

theorem countId_pos (c : Collection) (i : String)
    (h : c.any (fun d => d.id == i) = true) : 1 ≤ countId c i := by
  rcases List.any_eq_true.mp h with ⟨d, hd, hde⟩
  have : d ∈ c.filter (fun d => d.id == i) := List.mem_filter.mpr ⟨hd, hde⟩
  exact List.length_pos.mpr (List.ne_nil_of_mem this)

/-- C2: starting from any store holding at most one document for the record's
id, upserting the same record twice leaves exactly one stored document for
that id, and the second upsert inserts nothing (the store is unchanged by
it), because incoming ids are filtered against the ids already present. -/
theorem C2_double_upsert_dedupes (c : Collection) (e : EmailRec)
    (h : countId c e.id ≤ 1) :
    countId (updated_chromadb [e] (updated_chromadb [e] c).collection).collection e.id = 1 ∧
    (updated_chromadb [e] (updated_chromadb [e] c).collection).collection
      = (updated_chromadb [e] c).collection := by
  by_cases hm : c.any (fun d => d.id == e.id) = true
  · have h1 : (updated_chromadb [e] c).collection = c := by rw [upsert_single, if_pos hm]
    have h2 : countId c e.id = 1 := le_antisymm h (countId_pos c e.id hm)
    rw [h1, upsert_single, if_pos hm]
    exact ⟨h2, rfl⟩
  · have hm' : c.any (fun d => d.id == e.id) = false := Bool.eq_false_iff.mpr hm
    have h0 : countId c e.id = 0 := (countId_zero_iff c e.id).mp hm'
    have h1 : (updated_chromadb [e] c).collection
        = c ++ [⟨e.id, e.body, e.subject, e.sender, e.date⟩] := by
      rw [upsert_single, if_neg hm]
    have hany2 : (c ++ [(⟨e.id, e.body, e.subject, e.sender, e.date⟩ : StoredDoc)]).any
        (fun d => d.id == e.id) = true := by
      apply List.any_eq_true.mpr
      exact ⟨⟨e.id, e.body, e.subject, e.sender, e.date⟩, by simp, by simp⟩
    rw [h1, upsert_single, if_pos hany2]
    refine ⟨?_, rfl⟩
    rw [countId_append, h0]
    simp [countId]

/-- Witness for `C2_double_upsert_dedupes` on the empty store and `e0`. -/
theorem C2_witness :
    countId (updated_chromadb [e0] (updated_chromadb [e0] ([] : Collection)).collection).collection
        e0.id = 1 ∧
    (updated_chromadb [e0] (updated_chromadb [e0] ([] : Collection)).collection).collection
      = (updated_chromadb [e0] ([] : Collection)).collection :=
  C2_double_upsert_dedupes ([] : Collection) e0 (by decide)

/-- C3 amended: `updated_chromadb` inserts exactly the incoming records whose
id is absent from the store — the store grows by the number of such records —
but it returns `None` rather than that count (its only report is a printed
message). -/
theorem C3_amended_inserts_new_returns_none (emails : List EmailRec) (c : Collection) :
    (updated_chromadb emails c).collection.length =
      c.length + (emails.filter (fun e => !(c.any (fun d => d.id == e.id)))).length ∧
    (updated_chromadb emails c).ret = none := by
  have key : emails.filter
      (fun e => !(((c.filter (fun d => (emails.map (fun x => x.id)).contains d.id)).map
        (fun d => d.id)).contains e.id))
      = emails.filter (fun e => !(c.any (fun d => d.id == e.id))) := by
    apply List.filter_congr
    intro e he
    rw [existing_contains c (emails.map (fun x => x.id)) e.id (List.mem_map_of_mem _ he)]
  constructor
  · simp only [updated_chromadb]
    rw [key]
    by_cases hemp : (emails.filter (fun e => !(c.any (fun d => d.id == e.id)))).isEmpty
    · rw [if_pos hemp]
      rw [List.isEmpty_iff.mp hemp]
      rfl
    · rw [if_neg hemp]
      simp [List.length_append]
  · simp only [updated_chromadb]
    split <;> rfl

/-! ### Summarization lemmas and claims C5, C10 -/

theorem summarize_empty (llm : String → String → String) (tokenizer : String → Nat)
    (parseDocDate : String → Int) (now timedelta_int : Int) (c : Collection) (ct : Bool)
    (h : c.filter (fun d => now - timedelta_int ≤ parseDocDate d.date) = []) :
    summarize_emails llm tokenizer parseDocDate now timedelta_int c ct
      = { result := SummResult.strV noDocsMsg, modelCalls := 0 } := by
  simp only [summarize_emails]
  rw [h]
  rfl

theorem summarize_nonempty (llm : String → String → String) (tokenizer : String → Nat)
    (parseDocDate : String → Int) (now timedelta_int : Int) (c : Collection) (ct : Bool)
    (h : c.filter (fun d => now - timedelta_int ≤ parseDocDate d.date) ≠ []) :
    summarize_emails llm tokenizer parseDocDate now timedelta_int c ct
      = { result := SummResult.pairV
            (llm (mkSummPrompt ((c.filter (fun d => now - timedelta_int ≤ parseDocDate d.date)).map
              (fun d => d.document))) summSystem)
            (if ct then
              some (tokenizer (mkSummPrompt
                ((c.filter (fun d => now - timedelta_int ≤ parseDocDate d.date)).map
                  (fun d => d.document))))
            else none),
          modelCalls := 1 } := by
  simp only [summarize_emails]
  have hne : (((c.filter (fun d => now - timedelta_int ≤ parseDocDate d.date)).map
      (fun d => d.document))).isEmpty = false := by
    apply Bool.eq_false_iff.mpr
    intro hemp
    exact h (List.map_eq_nil_iff.mp (List.isEmpty_iff.mp hemp))
  rw [hne]
  cases ct <;> rfl

/-- C5: when no stored document has a date on or after the cutoff
`now − timedelta`, `summarize_emails` returns the fixed no-documents message
and makes no generation call; when at least one qualifies, exactly the
qualifying document texts are joined into the single prompt sent to the
model. -/
theorem C5_summarize_window (llm : String → String → String) (tokenizer : String → Nat)
    (parseDocDate : String → Int) (now timedelta_int : Int) (c : Collection) (ct : Bool) :
    (c.filter (fun d => now - timedelta_int ≤ parseDocDate d.date) = [] →
      summarize_emails llm tokenizer parseDocDate now timedelta_int c ct
        = { result := SummResult.strV noDocsMsg, modelCalls := 0 }) ∧
    (c.filter (fun d => now - timedelta_int ≤ parseDocDate d.date) ≠ [] →
      summarize_emails llm tokenizer parseDocDate now timedelta_int c ct
        = { result := SummResult.pairV
              (llm (mkSummPrompt ((c.filter (fun d => now - timedelta_int ≤ parseDocDate d.date)).map
                (fun d => d.document))) summSystem)
              (if ct then
                some (tokenizer (mkSummPrompt
                  ((c.filter (fun d => now - timedelta_int ≤ parseDocDate d.date)).map
                    (fun d => d.document))))
              else none),
            modelCalls := 1 }) :=
  ⟨summarize_empty llm tokenizer parseDocDate now timedelta_int c ct,
   summarize_nonempty llm tokenizer parseDocDate now timedelta_int c ct⟩

/-- Witness for `C5_summarize_window`: an empty store returns the fixed
message with no model call; a store holding one qualifying document leads to
one model call on the joined prompt. -/
theorem C5_witness :
    summarize_emails (fun p _ => p) (fun s => s.length) (fun _ => 0) 0 0 ([] : Collection) false
      = { result := SummResult.strV noDocsMsg, modelCalls := 0 } ∧
    summarize_emails (fun p _ => p) (fun s => s.length) (fun _ => 0) 0 0 [doc1] false
      = { result := SummResult.pairV (mkSummPrompt [("doc one")]) none, modelCalls := 1 } :=
  ⟨(C5_summarize_window (fun p _ => p) (fun s => s.length) (fun _ => 0) 0 0
      ([] : Collection) false).1 rfl,
   (C5_summarize_window (fun p _ => p) (fun s => s.length) (fun _ => 0) 0 0
      [doc1] false).2 (by decide)⟩

/-- C10: `summarize_emails` returns values of two different shapes — a bare
string on the no-qualifying-documents path and a pair otherwise — so the
two-component unpacking performed by the Summarize action of the Streamlit
app succeeds on the pair shape and raises on the fixed message. -/
theorem C10_two_result_shapes (llm : String → String → String) (tokenizer : String → Nat)
    (parseDocDate : String → Int) (now timedelta_int : Int) (c : Collection) (ct : Bool) :
    (c.filter (fun d => now - timedelta_int ≤ parseDocDate d.date) = [] →
      (summarize_emails llm tokenizer parseDocDate now timedelta_int c ct).result
          = SummResult.strV noDocsMsg ∧
        unpackTwoSucceeds
          (summarize_emails llm tokenizer parseDocDate now timedelta_int c ct).result = false) ∧
    (c.filter (fun d => now - timedelta_int ≤ parseDocDate d.date) ≠ [] →
      ∃ r tk, (summarize_emails llm tokenizer parseDocDate now timedelta_int c ct).result
          = SummResult.pairV r tk ∧
        unpackTwoSucceeds
          (summarize_emails llm tokenizer parseDocDate now timedelta_int c ct).result = true) := by
  constructor
  · intro h
    rw [summarize_empty llm tokenizer parseDocDate now timedelta_int c ct h]
    exact ⟨rfl, by decide⟩
  · intro h
    rw [summarize_nonempty llm tokenizer parseDocDate now timedelta_int c ct h]
    exact ⟨_, _, rfl, rfl⟩

/-- Witness for `C10_two_result_shapes` at the same concrete stores as the
C5 witness. -/
theorem C10_witness :
    ((summarize_emails (fun p _ => p) (fun s => s.length) (fun _ => 0) 0 0
        ([] : Collection) false).result = SummResult.strV noDocsMsg ∧
      unpackTwoSucceeds (summarize_emails (fun p _ => p) (fun s => s.length) (fun _ => 0) 0 0
        ([] : Collection) false).result = false) ∧
    (∃ r tk, (summarize_emails (fun p _ => p) (fun s => s.length) (fun _ => 0) 0 0
        [doc1] false).result = SummResult.pairV r tk ∧
      unpackTwoSucceeds (summarize_emails (fun p _ => p) (fun s => s.length) (fun _ => 0) 0 0
        [doc1] false).result = true) :=
  ⟨(C10_two_result_shapes (fun p _ => p) (fun s => s.length) (fun _ => 0) 0 0
      ([] : Collection) false).1 rfl,
   (C10_two_result_shapes (fun p _ => p) (fun s => s.length) (fun _ => 0) 0 0
      [doc1] false).2 (by decide)⟩

/-! ### Claims C8, C9 -/

theorem headerValue_of_absent (hs : List (String × String)) (k : String)
    (h : ∀ p ∈ hs, p.1 ≠ k) : headerValue hs k = "" := by
  unfold headerValue
  rw [List.find?_eq_none.mpr]
  intro x hx
  simp [h x hx]

/-- C8: on a non-multipart message carrying body data, `get_emails`
classifies the body as HTML exactly when the lowercased body contains the
root tag `<html>`, classifies it as plain text otherwise, and normalizes the
selected body either way. -/
theorem C8_nonmultipart_classification {D : Type} (decode extract : String → String)
    (parseDate : String → Option D) (formatD : D → String) (now : D)
    (mid : String) (headers : List (String × String)) (d : String) (hd : d ≠ "") :
    (processMessage decode extract parseDate formatD now mid ⟨headers, [], some d⟩).html_available
        = containsHtmlTag (decode d) ∧
    (processMessage decode extract parseDate formatD now mid ⟨headers, [], some d⟩).plain_text_available
        = !(containsHtmlTag (decode d)) ∧
    (processMessage decode extract parseDate formatD now mid ⟨headers, [], some d⟩).body
        = clean_email_textS (extract (pyStripS (decode d))) := by
  have hble : (d == ("")) = false := by simpa using hd
  by_cases hh : containsHtmlTag (decode d) = true
  · simp [processMessage, hble, hh]
  · have hh' : containsHtmlTag (decode d) = false := Bool.eq_false_iff.mpr hh
    simp [processMessage, hble, hh']

/-- Witness for `C8_nonmultipart_classification` on the body `"<HTML>x"`
(classified as HTML through lowercasing) with identity decode/extract. -/
theorem C8_witness :
    (processMessage (fun s => s) (fun s => s) (fun _ => (none : Option Unit)) (fun _ => "") ()
        ("m1") ⟨[], [], some ("<HTML>x")⟩).html_available
      = containsHtmlTag ("<HTML>x") ∧
    (processMessage (fun s => s) (fun s => s) (fun _ => (none : Option Unit)) (fun _ => "") ()
        ("m1") ⟨[], [], some ("<HTML>x")⟩).plain_text_available
      = !(containsHtmlTag ("<HTML>x")) ∧
    (processMessage (fun s => s) (fun s => s) (fun _ => (none : Option Unit)) (fun _ => "") ()
        ("m1") ⟨[], [], some ("<HTML>x")⟩).body
      = clean_email_textS (pyStripS ("<HTML>x")) :=
  C8_nonmultipart_classification (fun s => s) (fun s => s) (fun _ => (none : Option Unit))
    (fun _ => "") () ("m1") [] ("<HTML>x") (by decide)

/-- C9: a missing Subject, From or Date header defaults the corresponding
value to the empty string, and an unparseable Date header makes the record's
date the formatted current date; the embedding is total, so no error is
raised on either condition. -/
theorem C9_header_defaults {D : Type} (decode extract : String → String)
    (parseDate : String → Option D) (formatD : D → String) (now : D)
    (mid : String) (payload : Payload) :
    ((∀ p ∈ payload.headers, p.1 ≠ ("Subject")) →
      (processMessage decode extract parseDate formatD now mid payload).subject = "") ∧
    ((∀ p ∈ payload.headers, p.1 ≠ ("From")) →
      (processMessage decode extract parseDate formatD now mid payload).sender = "") ∧
    ((∀ p ∈ payload.headers, p.1 ≠ ("Date")) →
      headerValue payload.headers ("Date") = "") ∧
    (parseDate (headerValue payload.headers ("Date")) = none →
      (processMessage decode extract parseDate formatD now mid payload).date = formatD now) := by
  refine ⟨?_, ?_, ?_, ?_⟩
  · intro h
    exact headerValue_of_absent payload.headers ("Subject") h
  · intro h
    exact headerValue_of_absent payload.headers ("From") h
  · intro h
    exact headerValue_of_absent payload.headers ("Date") h
  · intro h
    show (match parseDate (headerValue payload.headers ("Date")) with
          | some dt => formatD dt
          | none => formatD now) = formatD now
    rw [h]

/-- Witness for `C9_header_defaults` on a payload with no headers and an
always-failing date parse. -/
theorem C9_witness :
    (processMessage (fun s => s) (fun s => s) (fun _ => (none : Option Unit))
        (fun _ => "today") () ("m1") ⟨[], [], none⟩).subject = "" ∧
    (processMessage (fun s => s) (fun s => s) (fun _ => (none : Option Unit))
        (fun _ => "today") () ("m1") ⟨[], [], none⟩).sender = "" ∧
    headerValue ([] : List (String × String)) ("Date") = "" ∧
    (processMessage (fun s => s) (fun s => s) (fun _ => (none : Option Unit))
        (fun _ => "today") () ("m1") ⟨[], [], none⟩).date = "today" := by
  have h := C9_header_defaults (fun s => s) (fun s => s) (fun _ => (none : Option Unit))
    (fun _ => ("today")) () ("m1") ⟨[], [], none⟩
  exact ⟨h.1 (by simp), h.2.1 (by simp), h.2.2.1 (by simp), h.2.2.2 (by simp)⟩

/-! ### Claim C1 -/

theorem scanParts_spec (decode : String → String) (parts : List Part) (st : BodyScan) :
    scanParts decode parts st =
      ⟨(match lastPartData ("text/plain") parts with
        | some d => decode d
        | none => st.plain_text_body),
       (match lastPartData ("text/html") parts with
        | some d => decode d
        | none => st.html_body),
       (st.plain_text_found || (lastPartData ("text/plain") parts).isSome),
       (st.html_found || (lastPartData ("text/html") parts).isSome)⟩ := by
  induction parts generalizing st with
  | nil => simp [scanParts, lastPartData]
  | cons p ps ih =>
    have hplain : lastPartData ("text/plain") (p :: ps)
        = match lastPartData ("text/plain") ps with
          | some d => some d
          | none => partDataOk ("text/plain") p := rfl
    have hhtml : lastPartData ("text/html") (p :: ps)
        = match lastPartData ("text/html") ps with
          | some d => some d
          | none => partDataOk ("text/html") p := rfl
    cases hpd : p.data with
    | none =>
      have hpo : ∀ mt, partDataOk mt p = none := fun mt => by simp [partDataOk, hpd]
      rw [hplain, hhtml, hpo, hpo]
      have hstep : scanParts decode (p :: ps) st = scanParts decode ps st := by
        simp [scanParts, hpd]
      rw [hstep, ih]
      cases lastPartData ("text/plain") ps <;> cases lastPartData ("text/html") ps <;> simp
    | some d =>
      by_cases hde : d == ("")
      · have hpo : ∀ mt, partDataOk mt p = none := fun mt => by simp [partDataOk, hpd, hde]
        rw [hplain, hhtml, hpo, hpo]
        have hstep : scanParts decode (p :: ps) st = scanParts decode ps st := by
          simp [scanParts, hpd, hde]
        rw [hstep, ih]
        cases lastPartData ("text/plain") ps <;> cases lastPartData ("text/html") ps <;> simp
      · have hde' : (d == ("")) = false := Bool.eq_false_iff.mpr hde
        by_cases hh : p.mimeType == ("text/html")
        · have hpoh : partDataOk ("text/html") p = some d := by
            simp [partDataOk, hpd, hde', hh]
          have hpop : partDataOk ("text/plain") p = none := by
            have : (p.mimeType == ("text/plain")) = false := by
              have := beq_iff_eq.mp hh
              simp [this]
            simp [partDataOk, hpd, this]
          have hstep : scanParts decode (p :: ps) st
              = scanParts decode ps { st with html_body := decode d, html_found := true } := by
            simp [scanParts, hpd, hde', hh]
          rw [hstep, ih, hplain, hhtml, hpoh, hpop]
          cases lastPartData ("text/plain") ps <;> cases lastPartData ("text/html") ps <;> simp
        · by_cases hp : p.mimeType == ("text/plain")
          · have hpop : partDataOk ("text/plain") p = some d := by
              simp [partDataOk, hpd, hde', hp]
            have hpoh : partDataOk ("text/html") p = none := by
              have hh' : (p.mimeType == ("text/html")) = false := Bool.eq_false_iff.mpr hh
              simp [partDataOk, hpd, hh']
            have hstep : scanParts decode (p :: ps) st
                = scanParts decode ps { st with plain_text_body := decode d, plain_text_found := true } := by
              have hh' : (p.mimeType == ("text/html")) = false := Bool.eq_false_iff.mpr hh
              simp [scanParts, hpd, hde', hh', hp]
            rw [hstep, ih, hplain, hhtml, hpop, hpoh]
            cases lastPartData ("text/plain") ps <;> cases lastPartData ("text/html") ps <;> simp
          · have hh' : (p.mimeType == ("text/html")) = false := Bool.eq_false_iff.mpr hh
            have hp' : (p.mimeType == ("text/plain")) = false := Bool.eq_false_iff.mpr hp
            have hpoh : partDataOk ("text/html") p = none := by simp [partDataOk, hpd, hh']
            have hpop : partDataOk ("text/plain") p = none := by simp [partDataOk, hpd, hp']
            have hstep : scanParts decode (p :: ps) st = scanParts decode ps st := by
              simp [scanParts, hpd, hde', hh', hp']
            rw [hstep, ih, hplain, hhtml, hpop, hpoh]
            cases lastPartData ("text/plain") ps <;> cases lastPartData ("text/html") ps <;> simp

/-- Claim C1 is false: on a multipart message holding both a plain-text
part and an HTML part, the Email Record normalizes the HTML content, not
the plain-text content. -/
theorem C1_counterexample :
    ((get_emails (fun s => s) (fun s => s) (fun _ => (none : Option Unit)) (fun _ => "") ()
        [(("m1"), payloadBoth)]).map (fun r => (r.plain_text_available, r.html_available, r.body)))
      = [(true, true, clean_email_textS (("<p>x</p>")))] ∧
    clean_email_textS (("<p>x</p>")) ≠ clean_email_textS (("hello")) := by decide

theorem C1_amended_html_preferred {D : Type} (decode extract : String → String)
    (parseDate : String → Option D) (formatD : D → String) (now : D)
    (mid : String) (headers : List (String × String)) (parts : List Part) (bd : Option String)
    (hne : parts ≠ []) :
    (∀ d, lastPartData ("text/html") parts = some d →
      (processMessage decode extract parseDate formatD now mid ⟨headers, parts, bd⟩).body
          = clean_email_textS (extract (pyStripS (decode d))) ∧
      (processMessage decode extract parseDate formatD now mid ⟨headers, parts, bd⟩).html_available
          = true) ∧
    (lastPartData ("text/html") parts = none →
      ∀ d, lastPartData ("text/plain") parts = some d →
        (processMessage decode extract parseDate formatD now mid ⟨headers, parts, bd⟩).body
            = clean_email_textS (extract (pyStripS (decode d))) ∧
        (processMessage decode extract parseDate formatD now mid ⟨headers, parts, bd⟩).html_available
            = false) := by
  have hpe : (⟨headers, parts, bd⟩ : Payload).parts.isEmpty = false := by
    cases parts with
    | nil => exact absurd rfl hne
    | cons a as => rfl
  constructor
  · intro d hd
    constructor <;> simp [processMessage, hpe, scanParts_spec, hd]
  · intro hnone d hd
    constructor <;> simp [processMessage, hpe, scanParts_spec, hnone, hd]

theorem C1_amended_witness :
    (processMessage (fun s => s) (fun s => s) (fun _ => (none : Option Unit)) (fun _ => "") ()
        ("m1") payloadBoth).body = clean_email_textS (pyStripS ("<p>x</p>")) ∧
    (processMessage (fun s => s) (fun s => s) (fun _ => (none : Option Unit)) (fun _ => "") ()
        ("m1") payloadBoth).html_available = true :=
  (C1_amended_html_preferred (fun s => s) (fun s => s) (fun _ => (none : Option Unit)) (fun _ => "")
    () ("m1") [] payloadBoth.parts none (by decide)).1 ("<p>x</p>") (by decide)

/-! ### Claim C7 counterexample -/

/-- Claim C7 is false: for the input `"[x](x)"` (text `x`, url `x`) the
normalized output is `"x"`, which does contain the url. -/
theorem C7_counterexample :
    clean_email_text (String.toList ("[x](x)")) = String.toList ("x") ∧
    containsSeq (String.toList ("x")) (clean_email_text (String.toList ("[x](x)"))) = true := by
  decide

theorem takeWhile_app (p : Char → Bool) (l r : List Char) (h : ∀ a ∈ l, p a = true) :
    (l ++ r).takeWhile p = l ++ r.takeWhile p := by
  induction l with
  | nil => rfl
  | cons a as ih =>
    have ha := h a (List.mem_cons_self a as)
    simp [List.takeWhile_cons, ha, ih (fun x hx => h x (List.mem_cons_of_mem a hx))]

theorem dropWhile_app (p : Char → Bool) (l r : List Char) (h : ∀ a ∈ l, p a = true) :
    (l ++ r).dropWhile p = r.dropWhile p := by
  induction l with
  | nil => rfl
  | cons a as ih =>
    have ha := h a (List.mem_cons_self a as)
    simp [List.dropWhile_cons, ha, ih (fun x hx => h x (List.mem_cons_of_mem a hx))]

theorem sub5Go_nil (n : Nat) : sub5Go n [] = [] := by cases n <;> rfl

theorem sub5Go_mdlink (n : Nat) (text url rest : List Char)
    (ht : text ≠ []) (hu : url ≠ [])
    (htc : ∀ c ∈ text, (c == ']') = false) (huc : ∀ c ∈ url, (c == ')') = false) :
    sub5Go (n + 1) ('[' :: (text ++ ']' :: '(' :: (url ++ ')' :: rest)))
      = text ++ sub5Go n rest := by
  have h1 : (text ++ ']' :: '(' :: (url ++ ')' :: rest)).takeWhile (fun x => !(x == ']'))
      = text := by
    rw [takeWhile_app _ _ _ (fun a ha => by simp [htc a ha])]
    simp [List.takeWhile_cons]
  have h2 : (text ++ ']' :: '(' :: (url ++ ')' :: rest)).dropWhile (fun x => !(x == ']'))
      = ']' :: '(' :: (url ++ ')' :: rest) := by
    rw [dropWhile_app _ _ _ (fun a ha => by simp [htc a ha])]
    simp [List.dropWhile_cons]
  have h3 : (url ++ ')' :: rest).takeWhile (fun x => !(x == ')')) = url := by
    rw [takeWhile_app _ _ _ (fun a ha => by simp [huc a ha])]
    simp [List.takeWhile_cons]
  have h4 : (url ++ ')' :: rest).dropWhile (fun x => !(x == ')')) = ')' :: rest := by
    rw [dropWhile_app _ _ _ (fun a ha => by simp [huc a ha])]
    simp [List.dropWhile_cons]
  have h5 : text.isEmpty = false := by
    cases text with
    | nil => exact absurd rfl ht
    | cons a as => rfl
  have h6 : url.isEmpty = false := by
    cases url with
    | nil => exact absurd rfl hu
    | cons a as => rfl
  simp [sub5Go, h1, h2, h3, h4, h5, h6]

theorem leadsWith_self (l : List Char) : leadsWith l l = true := by
  induction l with
  | nil => rfl
  | cons a as ih => simp [leadsWith, ih]

theorem containsSeq_self (l : List Char) (h : l ≠ []) : containsSeq l l = true := by
  cases l with
  | nil => exact absurd rfl h
  | cons a as => simp [containsSeq, leadsWith_self]

theorem lower_not_special (c : Char) (h : isLowerAlpha c = true) :
    isDashPipe c = false ∧ isPySpace c = false ∧ isInvisible c = false ∧
    (c == '|') = false ∧ (c == '\n') = false ∧ (c == '-') = false ∧
    (c == '&') = false ∧ (c == '#') = false ∧ (c == ']') = false ∧ (c == ')') = false := by
  have hx : ∀ x : Char, isLowerAlpha x = false → (c == x) = false := by
    intro x hf
    apply beq_eq_false_iff_ne.mpr
    intro he
    rw [he] at h
    rw [h] at hf
    cases hf
  refine ⟨?_, ?_, ?_, hx '|' (by decide), hx '\n' (by decide), hx '-' (by decide),
    hx '&' (by decide), hx '#' (by decide), hx ']' (by decide), hx ')' (by decide)⟩
  · simp [isDashPipe, hx '-' (by decide), hx '|' (by decide)]
  · simp [isPySpace, hx ' ' (by decide), hx '\t' (by decide), hx '\n' (by decide),
      hx '\u000b' (by decide), hx '\u000c' (by decide), hx '\r' (by decide),
      hx '\u001c' (by decide), hx '\u001d' (by decide), hx '\u001e' (by decide),
      hx '\u001f' (by decide), hx '\u0085' (by decide), hx '\u00a0' (by decide),
      hx '\u1680' (by decide), hx '\u2000' (by decide), hx '\u2001' (by decide),
      hx '\u2002' (by decide), hx '\u2003' (by decide), hx '\u2004' (by decide),
      hx '\u2005' (by decide), hx '\u2006' (by decide), hx '\u2007' (by decide),
      hx '\u2008' (by decide), hx '\u2009' (by decide), hx '\u200a' (by decide),
      hx '\u2028' (by decide), hx '\u2029' (by decide), hx '\u202f' (by decide),
      hx '\u205f' (by decide), hx '\u3000' (by decide)]
  · simp [isInvisible, hx '\u200b' (by decide), hx '\u200c' (by decide),
      hx '\u200d' (by decide), hx '\ufeff' (by decide), hx '\u00ad' (by decide)]

theorem mdLink_chars (text url : List Char)
    (hlt : ∀ c ∈ text, isLowerAlpha c = true) (hlu : ∀ c ∈ url, isLowerAlpha c = true) :
    ∀ c ∈ mdLink text url,
      isLowerAlpha c = true ∨ c = '[' ∨ c = ']' ∨ c = '(' ∨ c = ')' := by
  intro c hc
  simp [mdLink] at hc
  rcases hc with rfl | hc | rfl | rfl | hc | rfl
  · exact Or.inr (Or.inl rfl)
  · exact Or.inl (hlt c hc)
  · exact Or.inr (Or.inr (Or.inl rfl))
  · exact Or.inr (Or.inr (Or.inr (Or.inl rfl)))
  · exact Or.inl (hlu c hc)
  · exact Or.inr (Or.inr (Or.inr (Or.inr rfl)))

/-- C7 amended: claim C7 holds for inputs that are exactly one markdown link
whose text and url are nonempty lowercase-ASCII words and whose url does not
occur inside the text: the normalized output is exactly the text, it
contains the text, none of the four bracket characters, and not the url. -/
theorem C7_amended_link_rewrite (text url : List Char) (ht : text ≠ []) (hu : url ≠ [])
    (hlt : ∀ c ∈ text, isLowerAlpha c = true) (hlu : ∀ c ∈ url, isLowerAlpha c = true)
    (hni : containsSeq url text = false) :
    clean_email_text (mdLink text url) = text ∧
    containsSeq text (clean_email_text (mdLink text url)) = true ∧
    containsSeq url (clean_email_text (mdLink text url)) = false ∧
    '[' ∉ clean_email_text (mdLink text url) ∧
    ']' ∉ clean_email_text (mdLink text url) ∧
    '(' ∉ clean_email_text (mdLink text url) ∧
    ')' ∉ clean_email_text (mdLink text url) := by
  have hch := mdLink_chars text url hlt hlu
  have k1 : sub1 (mdLink text url) = mdLink text url := by
    apply sub1Go_id
    intro c hc
    rcases hch c hc with h | rfl | rfl | rfl | rfl
    · exact (lower_not_special c h).1
    all_goals decide
  have k2 : sub2 (mdLink text url) = mdLink text url := by
    apply sub2_id
    intro c hc
    rcases hch c hc with h | rfl | rfl | rfl | rfl
    · exact (lower_not_special c h).2.2.2.1
    all_goals decide
  have k3 : sub3 (mdLink text url) = mdLink text url := by
    apply sub3Go_id
    intro c hc
    rcases hch c hc with h | rfl | rfl | rfl | rfl
    · exact (lower_not_special c h).2.2.2.2.1
    all_goals decide
  have k4 : sub4 (mdLink text url) = mdLink text url := by
    apply sub4Go_id
    intro c hc
    rcases hch c hc with h | rfl | rfl | rfl | rfl
    · exact ⟨(lower_not_special c h).2.1, (lower_not_special c h).2.2.2.2.2.1⟩
    all_goals exact ⟨by decide, by decide⟩
  have k5 : sub5 (mdLink text url) = text := by
    show sub5Go ((mdLink text url).length + 1) (mdLink text url) = text
    have h := sub5Go_mdlink ((mdLink text url).length) text url [] ht hu
      (fun c hc => (lower_not_special c (hlt c hc)).2.2.2.2.2.2.2.2.1)
      (fun c hc => (lower_not_special c (hlu c hc)).2.2.2.2.2.2.2.2.2)
    show sub5Go ((mdLink text url).length + 1)
      ('[' :: (text ++ ']' :: '(' :: (url ++ ')' :: []))) = text
    rw [h, sub5Go_nil]
    simp
  have k6 : sub6 text = text := by
    apply sub6Go_id
    intro c hc
    exact (lower_not_special c (hlt c hc)).2.2.2.2.2.2.1
  have k7 : sub7 text = text := by
    apply sub7Go_id
    intro c hc
    exact (lower_not_special c (hlt c hc)).2.1
  have k8 : sub8 text = text := by
    apply sub8_id
    intro c hc
    exact (lower_not_special c (hlt c hc)).2.2.1
  have k9 : sub9 text = text := by
    apply sub9Go_id
    intro c hc
    exact (lower_not_special c (hlt c hc)).2.2.2.2.2.2.2.1
  have k10 : pyStrip text = text := by
    apply pyStrip_id
    intro c hc
    exact (lower_not_special c (hlt c hc)).2.1
  have main : clean_email_text (mdLink text url) = text := by
    show pyStrip (sub9 (sub8 (sub7 (sub6 (sub5 (sub4 (sub3 (sub2 (sub1
        (mdLink text url)))))))))) = text
    rw [k1, k2, k3, k4, k5, k6, k7, k8, k9, k10]
  refine ⟨main, ?_, ?_, ?_, ?_, ?_, ?_⟩
  · rw [main]
    exact containsSeq_self text ht
  · rw [main]
    exact hni
  · rw [main]
    intro hmem
    exact absurd (hlt '[' hmem) (by decide)
  · rw [main]
    intro hmem
    exact absurd (hlt ']' hmem) (by decide)
  · rw [main]
    intro hmem
    exact absurd (hlt '(' hmem) (by decide)
  · rw [main]
    intro hmem
    exact absurd (hlt ')' hmem) (by decide)

/-- Witness for `C7_amended_link_rewrite` on `[ab](cd)`. -/
theorem C7_amended_witness :
    clean_email_text (mdLink (String.toList ("ab")) (String.toList ("cd")))
        = String.toList ("ab") ∧
    containsSeq (String.toList ("ab"))
        (clean_email_text (mdLink (String.toList ("ab")) (String.toList ("cd")))) = true ∧
    containsSeq (String.toList ("cd"))
        (clean_email_text (mdLink (String.toList ("ab")) (String.toList ("cd")))) = false ∧
    '[' ∉ clean_email_text (mdLink (String.toList ("ab")) (String.toList ("cd"))) ∧
    ']' ∉ clean_email_text (mdLink (String.toList ("ab")) (String.toList ("cd"))) ∧
    '(' ∉ clean_email_text (mdLink (String.toList ("ab")) (String.toList ("cd"))) ∧
    ')' ∉ clean_email_text (mdLink (String.toList ("ab")) (String.toList ("cd"))) :=
  C7_amended_link_rewrite (String.toList ("ab")) (String.toList ("cd"))
    (by decide) (by decide) (by decide) (by decide) (by decide)


end EmailSum
